import Mathlib

/-!
A verification development for the dynamic-evaluation core of an XPath-style
query engine (source file elementpath/xpath_base.py): the node data model,
the value coercions boolean and name of XPathToken, and the XPathContext
cursor with its five axis-traversal generators.

Python values relevant to this core are embedded as the inductive PyVal:
element-like objects (tag, attrib, text, children) carry a numeric id eid
modelling Python object identity, documents wrap a root element, tuples
carry a flag telling whether the tuple type is marked as a Namespace
named-tuple, and scalars are embedded directly.

Generators are modelled as functions returning the list of yields, each
yield recording the mutable cursor fields at that suspension point,
together with the context state after normal exhaustion.  Closing a
generator early is modelled by closeAfter: the source has no try/finally,
so code after a yield does not run when a suspended generator is closed,
and the state seen afterwards is the state recorded at the last suspension.
-/

namespace ElementPath

/-- Tag of an element-like object: a plain string for genuine elements, or a
callable marker for comments and processing instructions. -/
inductive Tag where
  | tagName (s : String)
  | comment
  | procInst
deriving DecidableEq

/-- An ElementTree-like element: object id (modelling Python identity), tag,
attribute pairs in insertion order, optional text, and child elements. -/
inductive Elem where
  | mk (eid : Nat) (tag : Tag) (attrib : List (String × String))
       (text : Option String) (children : List Elem)

def Elem.eid : Elem → Nat
  | .mk i _ _ _ _ => i

def Elem.tag : Elem → Tag
  | .mk _ t _ _ _ => t

def Elem.attrib : Elem → List (String × String)
  | .mk _ _ a _ _ => a

def Elem.text : Elem → Option String
  | .mk _ _ _ t _ => t

def Elem.children : Elem → List Elem
  | .mk _ _ _ _ c => c

/-- An ElementTree-like document object: exposes getroot etc.  The document
is duck-typed in the source, so getroot() may return None — an empty
ElementTree() passes is_document_node while holding no root element — hence
the root is optional. -/
structure Doc where
  did : Nat
  root : Option Elem

/-- The universe of Python values this core manipulates. -/
inductive PyVal where
  | pyNone
  | bool (b : Bool)
  | int (n : Int)
  | str (s : String)
  | list (xs : List PyVal)
  | tuple (xs : List PyVal) (isNS : Bool)
  | elem (e : Elem)
  | doc (d : Doc)

/-- Python identity test "value is None". -/
def isNone : PyVal → Bool
  | .pyNone => true
  | _ => false

/-- Python native truthiness, bool(value): containers are truthy when
non-empty, an element is truthy when it has children (ElementTree
semantics), documents have no bool/len protocol and are truthy. -/
def truthy : PyVal → Bool
  | .pyNone => false
  | .bool b => b
  | .int n => n != 0
  | .str s => s != ""
  | .list xs => !xs.isEmpty
  | .tuple xs _ => !xs.isEmpty
  | .elem e => !e.children.isEmpty
  | .doc _ => true

def isList : PyVal → Bool
  | .list _ => true
  | _ => false

def isTuple : PyVal → Bool
  | .tuple _ _ => true
  | _ => false

/-- hasattr(obj, tag/attrib/text): exactly the element-like objects. -/
def is_etree_element : PyVal → Bool
  | .elem _ => true
  | _ => false

/-- is_element_node(obj): element-like and the tag is not callable. -/
def is_element_node : PyVal → Bool
  | .elem e =>
    match e.tag with
    | .tagName _ => true
    | _ => false
  | _ => false

def is_comment_node : PyVal → Bool
  | .elem e =>
    match e.tag with
    | .comment => true
    | _ => false
  | _ => false

def is_document_node : PyVal → Bool
  | .doc _ => true
  | _ => false

/-- is_attribute_node(obj): a tuple whose type is not marked Namespace. -/
def is_attribute_node : PyVal → Bool
  | .tuple _ isNS => !isNS
  | _ => false

def is_namespace_node : PyVal → Bool
  | .tuple _ isNS => isNS
  | _ => false

def is_text_node : PyVal → Bool
  | .str _ => true
  | _ => false

/-- is_xpath_node(obj): tuple-shaped, element-like, document-like or text. -/
def is_xpath_node (v : PyVal) : Bool :=
  isTuple v || is_etree_element v || is_document_node v || is_text_node v

/-- The two fatal error kinds raised by this core, plus the IndexError a
subscript of an empty tuple would raise. -/
inductive XPathError where
  | typeError (msg : String)
  | valueError (msg : String)
  | indexError
deriving DecidableEq

/-- XPathToken.boolean: the effective boolean value, computed by fn:boolean.
Mirrors the source if/elif chain: a list is inspected through its first
element, a bare tuple or bare element-like value is a type error, anything
else is coerced by native truthiness. -/
def boolean (value : PyVal) : Except XPathError Bool :=
  match value with
  | .list xs =>
    match xs with
    | [] => .ok false
    | x :: rest =>
      if is_xpath_node x then .ok true
      else if (x :: rest).length > 1 then .error (.typeError "not a test expression")
      else .ok (truthy x)
  | v =>
    if isTuple v || is_etree_element v then .error (.typeError "not a test expression")
    else .ok (truthy v)

/-- XPathToken.name.  The match arms reproduce the source if/elif chain:
is_element_node first (tag returned), then is_attribute_node (first tuple
component), then is_document_node or is_namespace_node (empty string), then
the condition of the line
  elif value or isinstance(value, list) and not value:
which by Python operator precedence is
  value or (isinstance(value, list) and not value)
i.e. truthy value, or value is an empty list; otherwise a type error.
Element-like values with a callable tag (comments, processing instructions)
fall through the first test into the truthiness test. -/
def name (value : PyVal) : Except XPathError PyVal :=
  match value with
  | .elem e =>
    match e.tag with
    | .tagName s => .ok (.str s)
    | _ =>
      if truthy value || (isList value && !truthy value) then .ok (.str "")
      else .error (.typeError "an XPath node required")
  | .tuple xs isNS =>
    if !isNS then
      match xs.head? with
      | some x => .ok x
      | none => .error .indexError
    else .ok (.str "")
  | .doc _ => .ok (.str "")
  | v =>
    if truthy v || (isList v && !truthy v) then .ok (.str "")
    else .error (.typeError "an XPath node required")

/-- The value of the _iterator slot of a context: None initially, or one of
the bound axis generator methods.  The source never stores iter_attributes
in the slot (iter_attributes installs iter_self), but the constructor is
needed to state that fact. -/
inductive IterId where
  | noIter
  | iterSelf
  | iterAttributes
  | iterDescendants
  | iterChildren
  | iterAncestors
deriving DecidableEq

/-- The value of the _node_kind_test slot: is_element_node or
is_attribute_node. -/
inductive KindId where
  | elementTest
  | attributeTest
deriving DecidableEq

/-- A Python dict mapping variable names to values; assignment replaces an
existing entry in place or appends a new one. -/
abbrev VarDict := List (String × PyVal)

/-- The heap of dict objects, so that aliasing of the variables mapping
across contexts is observable: a context holds references (indices) into
the store, not the dicts themselves. -/
structure Store where
  dicts : List VarDict

def lookupDict (st : Store) (r : Nat) : VarDict :=
  st.dicts.getD r []

def allocDict (st : Store) (d : VarDict) : Store × Nat :=
  ({ dicts := st.dicts ++ [d] }, st.dicts.length)

/-- Python dict assignment d[k] = v. -/
def dictSet (d : VarDict) (k : String) (v : PyVal) : VarDict :=
  if d.any (fun kv => kv.1 == k) then
    d.map (fun kv => if kv.1 == k then (k, v) else kv)
  else d ++ [(k, v)]

/-- context.variables[k] = v performed through the store. -/
def setVar (st : Store) (r : Nat) (k : String) (v : PyVal) : Store :=
  { dicts := st.dicts.set r (dictSet (lookupDict st r) k v) }

/-- The XPathContext cursor.  The variables dict is held by reference
(varsRef) and the lazily built parent-map cache by an optional reference
(pmapRef; Option.none models the Python _parent_map = None). -/
structure XPathContext where
  root : PyVal
  item : PyVal
  position : Nat
  size : Nat
  varsRef : Nat
  pmapRef : Option Nat
  iterator : IterId
  kindTest : KindId

/-- root.getroot() for documents (None for a rootless document); callers
guard with is_document_node. -/
def getrootVal : PyVal → PyVal
  | .doc d =>
    match d.root with
    | some r => .elem r
    | none => .pyNone
  | v => v

/-- XPathContext.__init__(root, item=None, position=0, size=1, variables=None).
Fails unless root is an Element or a Document; with item None the cursor is
set to root itself (element root) or root.getroot() (document root); a
variables argument is used by reference, otherwise a fresh empty dict is
allocated. -/
def contextInit (st : Store) (root : PyVal) (item : PyVal) (position size : Nat)
    (varsArg : Option Nat) : Except XPathError (Store × XPathContext) :=
  if !is_element_node root && !is_document_node root then
    .error (.typeError "argument root must be an Element")
  else
    let theItem :=
      if !isNone item then item
      else if is_element_node root then root
      else getrootVal root
    let stvr :=
      match varsArg with
      | some r => (st, r)
      | none => allocDict st []
    .ok (stvr.1,
      { root := root
        item := theItem
        position := position
        size := size
        varsRef := stvr.2
        pmapRef := none
        iterator := .noIter
        kindTest := .elementTest })

/-- XPathContext.copy(item=None): builds a new context on a fresh copy of the
variables dict (self.variables.copy()) and then shares the parent-map cache
reference (obj._parent_map = self._parent_map). -/
def contextCopy (st : Store) (c : XPathContext) (item : PyVal) :
    Except XPathError (Store × XPathContext) :=
  let alloc := allocDict st (lookupDict st c.varsRef)
  match contextInit alloc.1 c.root (if isNone item then c.item else item)
      c.position c.size (some alloc.2) with
  | .ok (st2, c2) => .ok (st2, { c2 with pmapRef := c.pmapRef })
  | .error e => .error e

/-- One yield of an axis generator: the produced value together with the
mutable cursor fields as they stand at that suspension point. -/
structure Yielded where
  value : PyVal
  item : PyVal
  size : Nat
  position : Nat
  iterator : IterId
  kindTest : KindId

def mkYield (c : XPathContext) (v : PyVal) : Yielded :=
  { value := v
    item := c.item
    size := c.size
    position := c.position
    iterator := c.iterator
    kindTest := c.kindTest }

/-- The restore step self.item, self.size, self.position, self._iterator =
status, where the snapshot status holds the four fields of s. -/
def restoreFour (c s : XPathContext) : XPathContext :=
  { c with
      item := s.item
      size := s.size
      position := s.position
      iterator := s.iterator }

/-- The context state observed after a consumer takes k values from a run of
a generator and then closes (releases) it.  The source wraps no yield in
try/finally, so closing a generator suspended at a yield skips all code
after that yield: the state is exactly the state recorded at the k-th
suspension.  k = 0 means the generator body never ran; k beyond the number
of yields means the body ran to completion, giving the exhaustion state. -/
def closeAfter (run : List Yielded × XPathContext) (k : Nat)
    (c0 : XPathContext) : XPathContext :=
  if k = 0 then c0
  else
    match run.1.get? (k - 1) with
    | some ev =>
      { c0 with
          item := ev.item
          size := ev.size
          position := ev.position
          iterator := ev.iterator
          kindTest := ev.kindTest }
    | none => run.2

/-- XPathContext.iter_self: snapshot, install iter_self and the element kind
test, yield the current item, restore the snapshot (the kind test is left
as is_element_node). -/
def iter_self (c0 : XPathContext) : List Yielded × XPathContext :=
  let c := { c0 with iterator := IterId.iterSelf, kindTest := KindId.elementTest }
  ([mkYield c c.item], restoreFour c c0)

/-- Lexicographic order on (name, value) attribute pairs, as Python sorted
compares 2-tuples of strings. -/
def pairLe (a b : String × String) : Prop :=
  a.1 < b.1 ∨ (a.1 = b.1 ∧ a.2 ≤ b.2)

instance pairLe.instDecidable : DecidableRel pairLe := fun a b =>
  inferInstanceAs (Decidable (a.1 < b.1 ∨ (a.1 = b.1 ∧ a.2 ≤ b.2)))

instance pairLe.instTotal : IsTotal (String × String) pairLe where
  total a b := by
    rcases lt_trichotomy a.1 b.1 with h | h | h
    · exact Or.inl (Or.inl h)
    · rcases le_total a.2 b.2 with h2 | h2
      · exact Or.inl (Or.inr ⟨h, h2⟩)
      · exact Or.inr (Or.inr ⟨h.symm, h2⟩)
    · exact Or.inr (Or.inl h)

instance pairLe.instTrans : IsTrans (String × String) pairLe where
  trans a b c hab hbc := by
    rcases hab with h1 | h1
    · rcases hbc with h2 | h2
      · exact Or.inl (h1.trans h2)
      · exact Or.inl (lt_of_lt_of_le h1 (le_of_eq h2.1))
    · rcases hbc with h2 | h2
      · exact Or.inl (lt_of_le_of_lt (le_of_eq h1.1) h2)
      · exact Or.inr ⟨h1.1.trans h2.1, h1.2.trans h2.2⟩

/-- The loop body of iter_attributes: for item in sorted(elem.attrib.items()):
self.item = item; yield item. -/
def attrLoop : List (String × String) → XPathContext → List Yielded × XPathContext
  | [], c => ([], c)
  | kv :: rest, c =>
    let c1 := { c with item := PyVal.tuple [PyVal.str kv.1, PyVal.str kv.2] false }
    let r := attrLoop rest c1
    (mkYield c1 c1.item :: r.1, r.2)

/-- XPathContext.iter_attributes: on an element, snapshot, install iter_self
as the active iterator (sic, per the source) and the attribute kind test,
yield the attribute pairs sorted by name, restore the snapshot and reset
the kind test to is_element_node.  On a non-element the body does nothing. -/
def iter_attributes (c0 : XPathContext) : List Yielded × XPathContext :=
  match c0.item with
  | .elem e =>
    match e.tag with
    | .tagName _ =>
      let c := { c0 with iterator := IterId.iterSelf, kindTest := KindId.attributeTest }
      let r := attrLoop (List.insertionSort pairLe e.attrib) c
      (r.1, { restoreFour r.2 c0 with kindTest := KindId.elementTest })
    | _ => ([], c0)
  | _ => ([], c0)

/-- The loop body of iter_children: for self.position, self.item in
enumerate(elem): yield self.item. -/
def childLoop : List Elem → Nat → XPathContext → List Yielded × XPathContext
  | [], _, c => ([], c)
  | ch :: rest, i, c =>
    let c1 := { c with position := i, item := PyVal.elem ch }
    let r := childLoop rest (i + 1) c1
    (mkYield c1 c1.item :: r.1, r.2)

/-- The body of XPathContext.iter_children after the optional item
assignment: the document sentinel yields the document root element once
(size 1, position 0); an element yields its text (if any) then its children
with size = child count and position = index; anything else yields
nothing. -/
def iterChildrenBody (c : XPathContext) : List Yielded × XPathContext :=
  if isNone c.item then
    let c1 := { c with
      size := 1
      position := 0
      item := if is_document_node c.root then getrootVal c.root else c.root }
    ([mkYield c1 c1.item], c1)
  else
    match c.item with
    | .elem e =>
      match e.tag with
      | .tagName _ =>
        let rt :=
          match e.text with
          | some t =>
            let ct := { c with item := PyVal.str t }
            ([mkYield ct ct.item], ct)
          | none => ([], c)
        let c2 := { rt.2 with size := e.children.length }
        let rc := childLoop e.children 0 c2
        (rt.1 ++ rc.1, rc.2)
      | _ => ([], c)
    | _ => ([], c)

/-- XPathContext.iter_children(item=None): snapshot (restored at the end of
the body on every path), install iter_children, optionally set the item,
then run the body. -/
def iter_children (c0 : XPathContext) (param : Option PyVal) :
    List Yielded × XPathContext :=
  let c :=
    match param with
    | some it => { c0 with iterator := IterId.iterChildren, item := it }
    | none => { c0 with iterator := IterId.iterChildren }
  let r := iterChildrenBody c
  (r.1, restoreFour r.2 c0)

mutual

/-- The inner generator _iter_descendants of XPathContext.iter_descendants:
with the cursor on element e (the caller guarantees c.item = PyVal.elem e,
mirroring elem = self.item), yield the element, then its text if not None,
then, if it has children, set size to the child count and loop over the
children with position = index, recursing.  Neither size nor position is
restored between siblings. -/
def descAux (e : Elem) (c : XPathContext) : List Yielded × XPathContext :=
  match e with
  | .mk _ _ _ t children =>
    let ev := mkYield c c.item
    let rt :=
      match t with
      | some s =>
        let ct := { c with item := PyVal.str s }
        ([mkYield ct ct.item], ct)
      | none => ([], c)
    if children.length ≠ 0 then
      let c2 := { rt.2 with size := children.length }
      let rc := descList children 0 c2
      (ev :: (rt.1 ++ rc.1), rc.2)
    else
      (ev :: rt.1, rt.2)

def descList (es : List Elem) (i : Nat) (c : XPathContext) :
    List Yielded × XPathContext :=
  match es with
  | [] => ([], c)
  | ch :: rest =>
    let c1 := { c with position := i, item := PyVal.elem ch }
    let r1 := descAux ch c1
    let r2 := descList rest (i + 1) r1.2
    (r1.1 ++ r2.1, r2.2)

end

/-- XPathContext.iter_descendants(item=None): on the document sentinel, set
size 1 and position 0, yield the root object itself, reposition the cursor
on the document root element and run the inner traversal; on an
element-like cursor run the inner traversal directly; on anything else the
generator returns at once, without running the trailing restore (so the
installed iterator is left in place on that path, exactly as in the
source).  If the sentinel repositioning finds no element (a rootless
document), the source would yield the None item once and then fail on
elem.text; the model stops after the root-object yield on that degenerate
path. -/
def iter_descendants (c0 : XPathContext) (param : Option PyVal) :
    List Yielded × XPathContext :=
  let c :=
    match param with
    | some it => { c0 with iterator := IterId.iterDescendants, item := it }
    | none => { c0 with iterator := IterId.iterDescendants }
  if isNone c.item then
    let c1 := { c with size := 1, position := 0 }
    let ev0 := mkYield c1 c1.root
    let c2 := { c1 with
      item := if is_document_node c1.root then getrootVal c1.root else c1.root }
    let r :=
      match c2.item with
      | .elem e => descAux e c2
      | _ => ([], c2)
    (ev0 :: r.1, restoreFour r.2 c0)
  else
    match c.item with
    | .elem e =>
      let r := descAux e c
      (r.1, restoreFour r.2 c0)
    | _ => ([], c)

mutual

/-- Element.iter(): the element itself followed by all its sub-elements in
document order. -/
def elemIter (e : Elem) : List Elem :=
  match e with
  | .mk _ _ _ _ children => e :: elemIterList children

def elemIterList (es : List Elem) : List Elem :=
  match es with
  | [] => []
  | ch :: rest => elemIter ch ++ elemIterList rest

end

/-- The parent map dict comprehension of XPathContext.parent_map:
for elem in self.root.iter() for child in elem, child mapped to elem.
Keys are Python object identities, modelled by eid; a later binding for the
same key overwrites an earlier one, hence lookup searches from the end.
When the root yields no element tree (a rootless document, or a root that
is no tree at all) the source would fail while iterating; the model maps
that to the empty parent map. -/
def pmEntries (root : PyVal) : List (Nat × Elem) :=
  match getrootVal root with
  | .elem r => (elemIter r).flatMap (fun p => p.children.map (fun ch => (ch.eid, p)))
  | _ => []

def pmLookup (pm : List (Nat × Elem)) (k : Nat) : Option Elem :=
  (pm.reverse.find? (fun pr => pr.1 == k)).map (fun pr => pr.2)

/-- Outcome of a run of iter_ancestors: normal exhaustion, the circularity
value error, or fuel exhaustion of the model (the source loop is
while True and need not terminate on a cyclic parent map). -/
inductive AncOut where
  | done (evs : List Yielded) (c : XPathContext)
  | raised (evs : List Yielded) (err : XPathError)
  | fuelOut (evs : List Yielded) (c : XPathContext)

def ancOutEvs : AncOut → List Yielded
  | .done evs _ => evs
  | .raised evs _ => evs
  | .fuelOut evs _ => evs

/-- Outcome discriminant: some false = normal exhaustion, some true = the
circularity error, none = out of fuel. -/
def ancKind : AncOut → Option Bool
  | .done _ _ => some false
  | .raised _ _ => some true
  | .fuelOut _ _ => none

/-- The while True loop of iter_ancestors: look the current item up in the
parent map (by identity, i.e. eid); a missing entry breaks the loop; a
parent identical to the original starting element raises the circularity
value error; otherwise the cursor moves to the parent, which is yielded. -/
def ancLoop (pm : List (Nat × Elem)) (startId : Nat) :
    Nat → XPathContext → AncOut
  | 0, c => .fuelOut [] c
  | fuel + 1, c =>
    match (match c.item with | .elem e => pmLookup pm e.eid | _ => none) with
    | none => .done [] c
    | some p =>
      if p.eid = startId then
        .raised [] (.valueError "not an Element tree, circularity found")
      else
        let c1 := { c with item := PyVal.elem p }
        let ev := mkYield c1 c1.item
        match ancLoop pm startId fuel c1 with
        | .done evs cf => .done (ev :: evs) cf
        | .raised evs er => .raised (ev :: evs) er
        | .fuelOut evs cf => .fuelOut (ev :: evs) cf

/-- XPathContext.iter_ancestors(item=None): requires an element-like cursor
(otherwise the generator returns at once without restoring, as in the
source); walks the parent map upward from the starting element; the
snapshot is restored only on normal exhaustion.  The lazily cached
self.parent_map is modelled by computing pmEntries from the root at use:
the cache is built from the same root and the tree must not mutate during
an evaluation, so the cached dict always equals that computation. -/
def iter_ancestors (c0 : XPathContext) (param : Option PyVal) (fuel : Nat) :
    AncOut :=
  let c :=
    match param with
    | some it => { c0 with iterator := IterId.iterAncestors, item := it }
    | none => { c0 with iterator := IterId.iterAncestors }
  match c.item with
  | .elem e =>
    match ancLoop (pmEntries c.root) e.eid fuel c with
    | .done evs cf => .done evs (restoreFour cf c0)
    | .raised evs er => .raised evs er
    | .fuelOut evs cf => .fuelOut evs cf
  | _ => .done [] c

mutual

/-- Pre-order document-order value sequence of a subtree, as the spec words
it: the element itself, then its text content if any, then the subtrees of
its children in order. -/
def preorderVals (e : Elem) : List PyVal :=
  match e with
  | .mk _ _ _ t children =>
    PyVal.elem e ::
      ((match t with | some s => [PyVal.str s] | none => []) ++
        preorderValsList children)

def preorderValsList (es : List Elem) : List PyVal :=
  match es with
  | [] => []
  | ch :: rest => preorderVals ch ++ preorderValsList rest

end

mutual

/-- Pure description of the (value, size, position) data of the yields of
descAux, given the size and position the cursor carries on entry: the
element and its text are stamped with the entry size and position; a child
loop starts at size = child count and threads the size left by each child
subtree to the next sibling (the source never restores it between
siblings); the second component is the size left after the subtree. -/
def descSpec (e : Elem) (sz pos : Nat) : List (PyVal × Nat × Nat) × Nat :=
  match e with
  | .mk _ _ _ t children =>
    let base :=
      (PyVal.elem e, sz, pos) ::
        (match t with | some s => [(PyVal.str s, sz, pos)] | none => [])
    if children.length ≠ 0 then
      let r := descSpecList children 0 children.length
      (base ++ r.1, r.2)
    else
      (base, sz)

def descSpecList (es : List Elem) (i : Nat) (sz : Nat) :
    List (PyVal × Nat × Nat) × Nat :=
  match es with
  | [] => ([], sz)
  | ch :: rest =>
    let r1 := descSpec ch sz i
    let r2 := descSpecList rest (i + 1) r1.2
    (r1.1 ++ r2.1, r2.2)

end

/-- Pure description of the ancestor walk, as the spec words it: follow the
parent map upward from cur, collecting each parent nearest-first; a missing
entry terminates the walk (some false), a parent identical to the original
starting node is the circularity error (some true), and none means the
fuel ran out. -/
def ancChainSpec (pm : List (Nat × Elem)) (startId : Nat) :
    Nat → Nat → List Elem × Option Bool
  | 0, _ => ([], none)
  | fuel + 1, cur =>
    match pmLookup pm cur with
    | none => ([], some false)
    | some p =>
      if p.eid = startId then ([], some true)
      else
        let r := ancChainSpec pm startId fuel p.eid
        (p :: r.1, r.2)

/-- A fresh context as produced by construction on a given root, with the
cursor on that root. -/
def baseCtx (v : PyVal) : XPathContext :=
  { root := v
    item := v
    position := 0
    size := 1
    varsRef := 0
    pmapRef := none
    iterator := .noIter
    kindTest := .elementTest }

def exA : Elem := Elem.mk 1 (Tag.tagName "a") [] none []

def exC : Elem := Elem.mk 3 (Tag.tagName "c") [] none []

def exB : Elem := Elem.mk 2 (Tag.tagName "b") [] none [exC]

/-- Element with text "hi" and two children. -/
def exHi : Elem := Elem.mk 0 (Tag.tagName "r") [] (some "hi") [exA, exC]

/-- The tree root(text="x", children=[a, b]) where b has child c. -/
def exRootX : Elem := Elem.mk 0 (Tag.tagName "root") [] (some "x") [exA, exB]

/-- The tree root(children=[b, a]) where b has child c: a sibling after a
subtree that contains children. -/
def exRootU : Elem := Elem.mk 0 (Tag.tagName "root") [] none [exB, exA]

/-- Element with attributes inserted as b then a. -/
def exAttrs : Elem := Elem.mk 0 (Tag.tagName "e") [("b", "2"), ("a", "1")] none []

/-- Element with a single attribute. -/
def exAttrA : Elem := Elem.mk 0 (Tag.tagName "e") [("a", "1")] none []

def exLeaf : Elem := Elem.mk 12 (Tag.tagName "leaf") [] none []

def exMid : Elem := Elem.mk 11 (Tag.tagName "mid") [] none [exLeaf]

def exTop : Elem := Elem.mk 10 (Tag.tagName "top") [] none [exMid]

def exDoc : Doc := { did := 0, root := some exHi }

/-- A rootless document, as an empty ElementTree(): is_document_node holds
but getroot() returns None. -/
def exDocEmpty : Doc := { did := 1, root := none }

/-- The context contextInit returns on st10 with the rootless document as
root and item=None: the cursor is left on the document sentinel. -/
def ctx10n : XPathContext :=
  { root := PyVal.doc exDocEmpty
    item := PyVal.pyNone
    position := 0
    size := 1
    varsRef := 0
    pmapRef := none
    iterator := .noIter
    kindTest := .elementTest }

/-- Context on exHi with size and position distinct from anything the
children axis sets, to observe the missing restore on early close. -/
def ctx2 : XPathContext := { baseCtx (PyVal.elem exHi) with size := 5, position := 7 }

def ctx4 : XPathContext := baseCtx (PyVal.elem exRootX)

def ctx4u : XPathContext := baseCtx (PyVal.elem exRootU)

def ctx6 : XPathContext := baseCtx (PyVal.elem exAttrs)

def ctx5 : XPathContext := baseCtx (PyVal.elem exAttrA)

def ctx7 : XPathContext := baseCtx (PyVal.elem exHi)

def ctx7d : XPathContext := { baseCtx (PyVal.doc exDoc) with item := PyVal.pyNone }

def ctx8 : XPathContext := { baseCtx (PyVal.elem exTop) with item := PyVal.elem exLeaf }

def st9 : Store := { dicts := [[("x", PyVal.int 1)]] }

def ctx9 : XPathContext := { baseCtx (PyVal.elem exA) with pmapRef := some 7 }

def st10 : Store := { dicts := [] }

/-- The store and context contextInit returns on st10 with root exA. -/
def st10r : Store := { dicts := [[]] }

def ctx10 : XPathContext := baseCtx (PyVal.elem exA)

/-- Pure description of the children loop of iter_children, as the spec
words it: the children in order, each stamped with the fixed size and its
index as position. -/
def childSpec : List Elem → Nat → Nat → List (PyVal × Nat × Nat)
  | [], _, _ => []
  | ch :: rest, i, sz => (PyVal.elem ch, sz, i) :: childSpec rest (i + 1) sz

/-- The first yield of the attribute axis on ctx6 (attribute ("a","1")). -/
def c5ev : Yielded :=
  { value := PyVal.tuple [PyVal.str "a", PyVal.str "1"] false
    item := PyVal.tuple [PyVal.str "a", PyVal.str "1"] false
    size := 1
    position := 0
    iterator := IterId.iterSelf
    kindTest := KindId.attributeTest }

/-- The second yield of the attribute axis on ctx6 (attribute ("b","2")). -/
def c5ev2 : Yielded :=
  { value := PyVal.tuple [PyVal.str "b", PyVal.str "2"] false
    item := PyVal.tuple [PyVal.str "b", PyVal.str "2"] false
    size := 1
    position := 0
    iterator := IterId.iterSelf
    kindTest := KindId.attributeTest }

/-- C1: the effective boolean value coercion boolean(value) satisfies
exactly: boolean of the empty list is false; a non-empty list whose first
element is an XPath node gives true regardless of the rest; a one-element
list whose element is not a node gives that element's native truthiness; a
list of length greater than one whose first element is not a node raises a
type error; a bare tuple or a bare element-like value raises a type error;
any other value gives its native truthiness. -/
theorem C1_boolean_spec :
    boolean (PyVal.list []) = Except.ok false
    ∧ (∀ x xs, is_xpath_node x = true →
        boolean (PyVal.list (x :: xs)) = Except.ok true)
    ∧ (∀ x, is_xpath_node x = false →
        boolean (PyVal.list [x]) = Except.ok (truthy x))
    ∧ (∀ x xs, is_xpath_node x = false → xs ≠ [] →
        boolean (PyVal.list (x :: xs)) =
          Except.error (XPathError.typeError "not a test expression"))
    ∧ (∀ xs b, boolean (PyVal.tuple xs b) =
        Except.error (XPathError.typeError "not a test expression"))
    ∧ (∀ e, boolean (PyVal.elem e) =
        Except.error (XPathError.typeError "not a test expression"))
    ∧ (∀ v, isList v = false → isTuple v = false → is_etree_element v = false →
        boolean v = Except.ok (truthy v)) := by
  refine ⟨rfl, ?_, ?_, ?_, ?_, ?_, ?_⟩
  · intro x xs h
    simp [boolean, h]
  · intro x h
    simp [boolean, h]
  · intro x xs h hne
    cases xs with
    | nil => exact absurd rfl hne
    | cons y ys => simp [boolean, h]
  · intro xs b
    rfl
  · intro e
    rfl
  · intro v h1 h2 h3
    cases v <;> simp_all [boolean, isList, isTuple, is_etree_element]

/-- Witness for C1 at concrete inputs: a two-element non-node list is a type
error and a bare one-element non-node list has the truthiness of its
element. -/
theorem C1_boolean_spec_witness :
    boolean (PyVal.list [PyVal.int 1, PyVal.int 2]) =
      Except.error (XPathError.typeError "not a test expression")
    ∧ boolean (PyVal.list [PyVal.int 5]) = Except.ok true := by
  constructor
  · exact C1_boolean_spec.2.2.2.1 (PyVal.int 1) [PyVal.int 2] (by decide) (by simp)
  · exact C1_boolean_spec.2.2.1 (PyVal.int 5) (by decide)

/-- C3 as stated is false on the code: name(5) evaluates to the empty string
(5 is truthy, so the condition value or (isinstance(value, list) and not
value) holds) instead of raising a type error, while the falsy scalar 0
raises the type error instead of giving the empty string. -/
theorem C3_counterexample :
    name (PyVal.int 5) = Except.ok (PyVal.str "")
    ∧ name (PyVal.int 0) =
        Except.error (XPathError.typeError "an XPath node required") :=
  ⟨rfl, rfl⟩

/-- C3 amended: name(value) returns the tag of an element, the first
component of an attribute pair, the empty string for a document or
namespace node, the empty string for the empty sequence and for every
truthy value not otherwise classified (so name(5) is the empty string, not
an error), and raises the type error "an XPath node required" exactly for
falsy non-list values not otherwise classified (such as 0, the empty
string, False and None). -/
theorem C3_name_spec :
    (∀ i tg a t ch,
        name (PyVal.elem (Elem.mk i (Tag.tagName tg) a t ch)) =
          Except.ok (PyVal.str tg))
    ∧ (∀ x xs, name (PyVal.tuple (x :: xs) false) = Except.ok x)
    ∧ (∀ d, name (PyVal.doc d) = Except.ok (PyVal.str ""))
    ∧ (∀ xs, name (PyVal.tuple xs true) = Except.ok (PyVal.str ""))
    ∧ name (PyVal.list []) = Except.ok (PyVal.str "")
    ∧ (∀ v, is_element_node v = false → is_attribute_node v = false →
        is_document_node v = false → is_namespace_node v = false →
        truthy v = true → name v = Except.ok (PyVal.str ""))
    ∧ (∀ v, is_element_node v = false → is_attribute_node v = false →
        is_document_node v = false → is_namespace_node v = false →
        truthy v = false → isList v = false →
        name v = Except.error (XPathError.typeError "an XPath node required")) := by
  refine ⟨?_, ?_, ?_, ?_, rfl, ?_, ?_⟩
  · intro i tg a t ch
    rfl
  · intro x xs
    rfl
  · intro d
    rfl
  · intro xs
    rfl
  · intro v h1 h2 h3 h4 h5
    cases v with
    | elem e =>
      cases e with
      | mk i tg a t ch =>
        cases tg <;>
          simp_all [name, is_element_node, Elem.tag, truthy, isList]
    | _ => simp_all [name, is_element_node, is_attribute_node, is_document_node,
        is_namespace_node, truthy, isList]
  · intro v h1 h2 h3 h4 h5 h6
    cases v with
    | elem e =>
      cases e with
      | mk i tg a t ch =>
        cases tg <;>
          simp_all [name, is_element_node, Elem.tag, truthy, isList]
    | _ => simp_all [name, is_element_node, is_attribute_node, is_document_node,
        is_namespace_node, truthy, isList]

/-- Witness for C3 at concrete inputs: the attribute pair ("class","x") has
name "class", and the falsy scalar 0 raises the type error. -/
theorem C3_name_spec_witness :
    name (PyVal.tuple [PyVal.str "class", PyVal.str "x"] false) =
      Except.ok (PyVal.str "class")
    ∧ name (PyVal.int 0) =
        Except.error (XPathError.typeError "an XPath node required") := by
  constructor
  · exact C3_name_spec.2.1 (PyVal.str "class") [PyVal.str "x"]
  · exact C3_name_spec.2.2.2.2.2.2 (PyVal.int 0) (by decide) (by decide)
      (by decide) (by decide) (by decide) (by decide)

/-- C2: the code, evaluated at the failing input, shows that the restore
step is skipped when a consumer stops before exhaustion.  On a context
whose cursor is the element exHi (text "hi", two children) with size 5 and
position 7, consuming two values from the children axis and then closing
the generator leaves item on the first child with size 2 and position 0
(the state at the second suspension), whereas running the same generator to
exhaustion restores item, size and position to their pre-call values. -/
theorem C2_close_skips_restore :
    (closeAfter (iter_children ctx2 none) 2 ctx2).item = PyVal.elem exA
    ∧ (closeAfter (iter_children ctx2 none) 2 ctx2).size = 2
    ∧ (closeAfter (iter_children ctx2 none) 2 ctx2).position = 0
    ∧ ctx2.item = PyVal.elem exHi
    ∧ ctx2.size = 5
    ∧ ctx2.position = 7
    ∧ (2 : Nat) ≠ 5
    ∧ (0 : Nat) ≠ 7
    ∧ PyVal.elem exA ≠ PyVal.elem exHi
    ∧ (iter_children ctx2 none).2.item = PyVal.elem exHi
    ∧ (iter_children ctx2 none).2.size = 5
    ∧ (iter_children ctx2 none).2.position = 7 := by
  refine ⟨rfl, rfl, rfl, rfl, rfl, rfl, by decide, by decide, ?_, rfl, rfl, rfl⟩
  intro h
  cases h

theorem childLoop_vals (es : List Elem) : ∀ (i : Nat) (c : XPathContext),
    (childLoop es i c).1.map (fun ev => ev.value) = es.map PyVal.elem := by
  induction es with
  | nil => intro i c; rfl
  | cons ch rest ih =>
    intro i c
    simp only [childLoop, List.map_cons, mkYield]
    exact congrArg _ (ih (i + 1) _)

theorem childLoop_spec (es : List Elem) : ∀ (i : Nat) (c : XPathContext),
    (childLoop es i c).1.map (fun ev => (ev.value, ev.size, ev.position)) =
      childSpec es i c.size
    ∧ (∀ ev ∈ (childLoop es i c).1,
        ev.iterator = c.iterator ∧ ev.kindTest = c.kindTest) := by
  induction es with
  | nil => intro i c; exact ⟨rfl, by intro ev h; cases h⟩
  | cons ch rest ih =>
    intro i c
    have h := ih (i + 1) { c with position := i, item := PyVal.elem ch }
    constructor
    · simp only [childLoop, childSpec, List.map_cons, mkYield]
      exact congrArg _ h.1
    · intro ev hm
      simp only [childLoop, List.mem_cons] at hm
      rcases hm with hm | hm
      · subst hm; exact ⟨rfl, rfl⟩
      · exact h.2 ev hm

/-- C7: on the document sentinel the children axis yields exactly the
document root element once, with size 1 and position 0; on an element it
yields the text content (if present, stamped with the pre-call size and
position) followed by the immediate children in order with size = the
child count and position = each child's index; on any other cursor it
yields nothing. -/
theorem C7_children_spec :
    (∀ (d : Doc) (r : Elem) (c : XPathContext), c.item = PyVal.pyNone →
        c.root = PyVal.doc d → d.root = some r →
        (iter_children c none).1.map (fun ev => (ev.value, ev.size, ev.position)) =
          [(PyVal.elem r, 1, 0)])
    ∧ (∀ (i : Nat) (tg : String) (a : List (String × String)) (t : Option String)
        (ch : List Elem) (c : XPathContext),
        c.item = PyVal.elem (Elem.mk i (Tag.tagName tg) a t ch) →
        (iter_children c none).1.map (fun ev => (ev.value, ev.size, ev.position)) =
          (match t with | some s => [(PyVal.str s, c.size, c.position)] | none => []) ++
            childSpec ch 0 ch.length
        ∧ (iter_children c none).1.map (fun ev => ev.value) =
            (match t with | some s => [PyVal.str s] | none => []) ++
              ch.map PyVal.elem)
    ∧ (∀ c, isNone c.item = false → is_element_node c.item = false →
        (iter_children c none).1 = []) := by
  refine ⟨?_, ?_, ?_⟩
  · intro d r c h1 h2 h3
    obtain ⟨cr, ci, cp, cs, cv, cm, cit, ck⟩ := c
    obtain ⟨did, dro⟩ := d
    simp only at h1 h2 h3
    subst h1; subst h2; subst h3
    rfl
  · intro i tg a t ch c h
    obtain ⟨cr, ci, cp, cs, cv, cm, cit, ck⟩ := c
    simp only at h
    subst h
    constructor
    · cases t with
      | some s =>
        simp only [iter_children, iterChildrenBody, isNone, Elem.text, Elem.children, List.map_append,
          List.map_cons, mkYield]
        have hc2 := childLoop_spec ch 0
          { root := cr, item := PyVal.str s, position := cp, size := ch.length,
            varsRef := cv, pmapRef := cm, iterator := IterId.iterChildren,
            kindTest := ck }
        exact congrArg _ hc2.1
      | none =>
        simp only [iter_children, iterChildrenBody, isNone, Elem.text, Elem.children, List.map_append,
          List.map_cons, mkYield, List.nil_append]
        have hc2 := childLoop_spec ch 0
          { root := cr, item := PyVal.elem (Elem.mk i (Tag.tagName tg) a none ch),
            position := cp, size := ch.length,
            varsRef := cv, pmapRef := cm, iterator := IterId.iterChildren,
            kindTest := ck }
        exact hc2.1
    · cases t with
      | some s =>
        simp only [iter_children, iterChildrenBody, isNone, Elem.text, Elem.children, List.map_append,
          List.map_cons, mkYield]
        exact congrArg _ (childLoop_vals ch 0 _)
      | none =>
        simp only [iter_children, iterChildrenBody, isNone, Elem.text, Elem.children, List.map_append,
          List.map_cons, mkYield, List.nil_append]
        exact childLoop_vals ch 0 _
  · intro c h1 h2
    obtain ⟨cr, ci, cp, cs, cv, cm, cit, ck⟩ := c
    simp only at h1 h2
    cases ci <;> simp_all [iter_children, iterChildrenBody, isNone, is_element_node]
    case elem e =>
      cases e with
      | mk i tg a t ch => cases tg <;> simp_all [iter_children, iterChildrenBody, Elem.tag]

/-- Witness for C7: on the element with text "hi" and children [a, c] the
children axis yields "hi", then the two children in order. -/
theorem C7_children_spec_witness :
    (iter_children ctx7 none).1.map (fun ev => ev.value) =
      [PyVal.str "hi", PyVal.elem exA, PyVal.elem exC] := by
  have h := (C7_children_spec.2.1 0 "r" [] (some "hi") [exA, exC] ctx7 rfl).2
  rw [h]
  rfl

theorem attrLoop_spec (ps : List (String × String)) : ∀ (c : XPathContext),
    (attrLoop ps c).1.map (fun ev => ev.value) =
      ps.map (fun kv => PyVal.tuple [PyVal.str kv.1, PyVal.str kv.2] false)
    ∧ (∀ ev ∈ (attrLoop ps c).1,
        ev.iterator = c.iterator ∧ ev.kindTest = c.kindTest) := by
  induction ps with
  | nil => intro c; exact ⟨rfl, by intro ev h; cases h⟩
  | cons kv rest ih =>
    intro c
    have h := ih { c with item := PyVal.tuple [PyVal.str kv.1, PyVal.str kv.2] false }
    constructor
    · simp only [attrLoop, List.map_cons, mkYield]
      exact congrArg _ h.1
    · intro ev hm
      simp only [attrLoop, List.mem_cons] at hm
      rcases hm with hm | hm
      · subst hm; exact ⟨rfl, rfl⟩
      · exact h.2 ev hm

/-- C6: on an element cursor the attribute axis yields the element's
attribute pairs sorted by name (the sorted order is a permutation of the
attribute list with pairwise nondecreasing names), the node kind test is
the attribute test at every yield, and a non-element cursor yields
nothing. -/
theorem C6_attributes_spec :
    (∀ (i : Nat) (tg : String) (a : List (String × String)) (t : Option String)
        (ch : List Elem) (c : XPathContext),
        c.item = PyVal.elem (Elem.mk i (Tag.tagName tg) a t ch) →
        (iter_attributes c).1.map (fun ev => ev.value) =
          (List.insertionSort pairLe a).map
            (fun kv => PyVal.tuple [PyVal.str kv.1, PyVal.str kv.2] false)
        ∧ (∀ ev ∈ (iter_attributes c).1, ev.kindTest = KindId.attributeTest)
        ∧ (List.insertionSort pairLe a).Pairwise (fun x y => x.1 ≤ y.1)
        ∧ List.Perm (List.insertionSort pairLe a) a)
    ∧ (∀ c, is_element_node c.item = false → (iter_attributes c).1 = []) := by
  constructor
  · intro i tg a t ch c h
    obtain ⟨cr, ci, cp, cs, cv, cm, cit, ck⟩ := c
    simp only at h
    subst h
    have ha := attrLoop_spec (List.insertionSort pairLe a)
      { root := cr, item := PyVal.elem (Elem.mk i (Tag.tagName tg) a t ch),
        position := cp, size := cs, varsRef := cv, pmapRef := cm,
        iterator := IterId.iterSelf, kindTest := KindId.attributeTest }
    refine ⟨?_, ?_, ?_, ?_⟩
    · simpa only [iter_attributes, Elem.tag, Elem.attrib] using ha.1
    · intro ev hm
      simp only [iter_attributes, Elem.tag, Elem.attrib] at hm
      exact (ha.2 ev hm).2
    · have hs := List.sorted_insertionSort pairLe a
      exact hs.imp (fun hxy => by
        rcases hxy with h1 | h1
        · exact le_of_lt h1
        · exact le_of_eq h1.1)
    · exact List.perm_insertionSort pairLe a
  · intro c h
    obtain ⟨cr, ci, cp, cs, cv, cm, cit, ck⟩ := c
    simp only at h
    cases ci <;> simp_all [iter_attributes, is_element_node]
    case elem e =>
      cases e with
      | mk i tg a t ch => cases tg <;> simp_all [iter_attributes, Elem.tag]

/-- Witness for C6: attributes inserted as b then a come out sorted as
[("a","1"), ("b","2")]. -/
theorem C6_attributes_spec_witness :
    (iter_attributes ctx6).1.map (fun ev => ev.value) =
      [PyVal.tuple [PyVal.str "a", PyVal.str "1"] false,
       PyVal.tuple [PyVal.str "b", PyVal.str "2"] false] := by
  have h := (C6_attributes_spec.1 0 "e" [("b", "2"), ("a", "1")] none [] ctx6 rfl).1
  rw [h]
  have hs : List.insertionSort pairLe [("b", "2"), ("a", "1")] = [("a", "1"), ("b", "2")] := by
    simp [List.insertionSort, List.orderedInsert, pairLe]
    decide
  rw [hs]
  rfl

mutual

theorem descAux_spec (e : Elem) (c : XPathContext) (h : c.item = PyVal.elem e) :
    (descAux e c).1.map (fun ev => (ev.value, ev.size, ev.position)) =
      (descSpec e c.size c.position).1
    ∧ (descAux e c).2.size = (descSpec e c.size c.position).2
    ∧ (∀ ev ∈ (descAux e c).1, ev.iterator = c.iterator ∧ ev.kindTest = c.kindTest)
    ∧ (descAux e c).2.iterator = c.iterator
    ∧ (descAux e c).2.kindTest = c.kindTest := by
  cases e with
  | mk i0 tg a t ch =>
    by_cases hch : ch.length ≠ 0
    · cases t with
      | some s =>
        obtain ⟨hL1, hL2, hL3, hL4, hL5⟩ := descList_spec ch 0
          { c with item := PyVal.str s, size := ch.length }
        refine ⟨?_, ?_, ?_, ?_, ?_⟩
        · simp only [descAux, if_pos hch, List.map_cons, List.map_append, mkYield, h,
            descSpec, List.cons_append, List.nil_append, List.cons.injEq, true_and]
          exact hL1
        · simp only [descAux, if_pos hch, descSpec]
          exact hL2
        · intro ev hm
          simp only [descAux, if_pos hch, mkYield, List.mem_cons, List.mem_append,
            List.not_mem_nil, or_false] at hm
          rcases hm with hm | hm | hm
          · subst hm; exact ⟨rfl, rfl⟩
          · subst hm; exact ⟨rfl, rfl⟩
          · exact hL3 ev hm
        · simp only [descAux, if_pos hch]
          exact hL4
        · simp only [descAux, if_pos hch]
          exact hL5
      | none =>
        obtain ⟨hL1, hL2, hL3, hL4, hL5⟩ := descList_spec ch 0
          { c with item := PyVal.elem (Elem.mk i0 tg a none ch), size := ch.length }
        refine ⟨?_, ?_, ?_, ?_, ?_⟩
        · simp only [descAux, if_pos hch, List.map_cons, List.map_append, mkYield, h,
            descSpec, List.cons_append, List.nil_append, List.cons.injEq, true_and]
          exact hL1
        · simp only [descAux, if_pos hch, descSpec, h]
          exact hL2
        · intro ev hm
          simp only [descAux, if_pos hch, mkYield, h, List.mem_cons, List.mem_append,
            List.not_mem_nil, or_false, List.nil_append] at hm
          rcases hm with hm | hm
          · subst hm; exact ⟨rfl, rfl⟩
          · exact hL3 ev hm
        · simp only [descAux, if_pos hch, h]
          exact hL4
        · simp only [descAux, if_pos hch, h]
          exact hL5
    · cases t with
      | some s =>
        refine ⟨?_, ?_, ?_, ?_, ?_⟩
        · simp only [descAux, if_neg hch, List.map_cons, mkYield, h, descSpec,
            List.map_nil]
        · simp only [descAux, if_neg hch, descSpec]
        · intro ev hm
          simp only [descAux, if_neg hch, mkYield, List.mem_cons, List.not_mem_nil,
            or_false] at hm
          rcases hm with hm | hm
          · subst hm; exact ⟨rfl, rfl⟩
          · subst hm; exact ⟨rfl, rfl⟩
        · simp only [descAux, if_neg hch]
        · simp only [descAux, if_neg hch]
      | none =>
        refine ⟨?_, ?_, ?_, ?_, ?_⟩
        · simp only [descAux, if_neg hch, List.map_cons, mkYield, h, descSpec,
            List.map_nil]
        · simp only [descAux, if_neg hch, descSpec]
        · intro ev hm
          simp only [descAux, if_neg hch, mkYield, List.mem_cons, List.not_mem_nil,
            or_false] at hm
          subst hm; exact ⟨rfl, rfl⟩
        · simp only [descAux, if_neg hch]
        · simp only [descAux, if_neg hch]

theorem descList_spec (es : List Elem) (i : Nat) (c : XPathContext) :
    (descList es i c).1.map (fun ev => (ev.value, ev.size, ev.position)) =
      (descSpecList es i c.size).1
    ∧ (descList es i c).2.size = (descSpecList es i c.size).2
    ∧ (∀ ev ∈ (descList es i c).1, ev.iterator = c.iterator ∧ ev.kindTest = c.kindTest)
    ∧ (descList es i c).2.iterator = c.iterator
    ∧ (descList es i c).2.kindTest = c.kindTest := by
  cases es with
  | nil =>
    exact ⟨rfl, rfl, (by intro ev hm; cases hm), rfl, rfl⟩
  | cons ch rest =>
    have h1 := descAux_spec ch { c with position := i, item := PyVal.elem ch } rfl
    have h2 := descList_spec rest (i + 1)
      (descAux ch { c with position := i, item := PyVal.elem ch }).2
    simp only [descList, List.map_append, descSpecList, List.mem_append] at h1 h2 ⊢
    have hsz : (descAux ch { c with position := i, item := PyVal.elem ch }).2.size =
        (descSpec ch c.size i).2 := h1.2.1
    refine ⟨?_, ?_, ?_, ?_, ?_⟩
    · rw [h1.1, h2.1, hsz]
    · rw [h2.2.1, hsz]
    · intro ev hm
      rcases hm with hm | hm
      · exact h1.2.2.1 ev hm
      · have hit := h1.2.2.2.1
        have hkt := h1.2.2.2.2
        have := h2.2.2.1 ev hm
        rw [hit, hkt] at this
        exact this
    · rw [h2.2.2.2.1, h1.2.2.2.1]
    · rw [h2.2.2.2.2, h1.2.2.2.2]

end

mutual

theorem descSpec_fst (e : Elem) (sz pos : Nat) :
    (descSpec e sz pos).1.map (fun x => x.1) = preorderVals e := by
  cases e with
  | mk i0 tg a t ch =>
    by_cases hch : ch.length ≠ 0
    · cases t with
      | some s =>
        simp only [descSpec, if_pos hch, preorderVals, List.map_cons, List.map_append,
          List.cons_append, List.nil_append, List.cons.injEq, true_and]
        exact descSpecList_fst ch 0 ch.length
      | none =>
        simp only [descSpec, if_pos hch, preorderVals, List.map_cons, List.map_append,
          List.cons_append, List.nil_append, List.cons.injEq, true_and]
        exact descSpecList_fst ch 0 ch.length
    · have hn : ch = [] := by
        cases ch with
        | nil => rfl
        | cons x xs => exact absurd (by simp) hch
      subst hn
      cases t with
      | some s => rfl
      | none => rfl

theorem descSpecList_fst (es : List Elem) (i sz : Nat) :
    (descSpecList es i sz).1.map (fun x => x.1) = preorderValsList es := by
  cases es with
  | nil => rfl
  | cons ch rest =>
    simp only [descSpecList, preorderValsList, List.map_append]
    rw [descSpec_fst ch sz i, descSpecList_fst rest (i + 1) (descSpec ch sz i).2]

end

/-- C4 as stated is false on the code: in the tree root(children=[b, a])
where b has child c, the descendant axis yields a (the second child of
root) with size 1 — the size left behind by b's subtree — although the
immediate parent of a (root) has 2 children, so size is not updated to the
child count of the immediate parent for every yielded child. -/
theorem C4_counterexample :
    (iter_descendants ctx4u none).1.map (fun ev => (ev.value, ev.size, ev.position)) =
      [(PyVal.elem exRootU, 1, 0), (PyVal.elem exB, 2, 0), (PyVal.elem exC, 1, 0),
       (PyVal.elem exA, 1, 1)]
    ∧ exRootU.children.length = 2
    ∧ (1 : Nat) ≠ 2 :=
  ⟨rfl, rfl, by decide⟩

/-- C4 amended: on the document sentinel the descendant axis first yields
the document root object itself with size 1 and position 0, then
repositions onto the document root element and continues with the pre-order
traversal; on an element-like cursor it yields the pre-order value sequence
(element, then its text if not None, then the children subtrees in
document order), where position is set to each child's index in its sibling
group and size is set to an element's child count when its child loop
begins but is not reset when returning from a sibling subtree (so a later
sibling can be yielded with a stale size, per descSpec); a non-element-like
non-sentinel cursor yields nothing. -/
theorem C4_descendants_spec :
    (∀ c, isNone c.item = false → is_etree_element c.item = false →
        (iter_descendants c none).1 = [])
    ∧ (∀ (e : Elem) (c : XPathContext), c.item = PyVal.elem e →
        (iter_descendants c none).1.map (fun ev => (ev.value, ev.size, ev.position)) =
          (descSpec e c.size c.position).1
        ∧ (iter_descendants c none).1.map (fun ev => ev.value) = preorderVals e)
    ∧ (∀ (d : Doc) (r : Elem) (c : XPathContext), c.item = PyVal.pyNone →
        c.root = PyVal.doc d → d.root = some r →
        (iter_descendants c none).1.map (fun ev => (ev.value, ev.size, ev.position)) =
          (PyVal.doc d, 1, 0) :: (descSpec r 1 0).1) := by
  refine ⟨?_, ?_, ?_⟩
  · intro c h1 h2
    obtain ⟨cr, ci, cp, cs, cv, cm, cit, ck⟩ := c
    simp only at h1 h2
    cases ci <;> simp_all [iter_descendants, isNone, is_etree_element]
  · intro e c h
    obtain ⟨cr, ci, cp, cs, cv, cm, cit, ck⟩ := c
    simp only at h
    subst h
    have hA := descAux_spec e
      { root := cr, item := PyVal.elem e, position := cp, size := cs,
        varsRef := cv, pmapRef := cm, iterator := IterId.iterDescendants,
        kindTest := ck } rfl
    constructor
    · simpa only [iter_descendants, isNone] using hA.1
    · have hv := congrArg (List.map (fun x : PyVal × Nat × Nat => x.1)) hA.1
      simp only [List.map_map] at hv
      have := hv.trans (descSpec_fst e cs cp)
      simpa only [iter_descendants, isNone] using this
  · intro d r c h1 h2 h3
    obtain ⟨cr, ci, cp, cs, cv, cm, cit, ck⟩ := c
    obtain ⟨did, dro⟩ := d
    simp only at h1 h2 h3
    subst h1; subst h2; subst h3
    have hA := descAux_spec r
      { root := PyVal.doc { did := did, root := some r }, item := PyVal.elem r,
        position := 0, size := 1, varsRef := cv, pmapRef := cm,
        iterator := IterId.iterDescendants, kindTest := ck } rfl
    simp only [iter_descendants, isNone, is_document_node, getrootVal, ite_true,
      if_true, List.map_cons, mkYield, List.cons.injEq, true_and]
    exact hA.1

/-- Witness for C4: on the tree root(text="x", children=[a, b]) where b has
child c, the descendant axis yields root, "x", a, b, c in that order. -/
theorem C4_descendants_spec_witness :
    (iter_descendants ctx4 none).1.map (fun ev => ev.value) =
      [PyVal.elem exRootX, PyVal.str "x", PyVal.elem exA, PyVal.elem exB,
       PyVal.elem exC] := by
  have h := (C4_descendants_spec.2.1 exRootX ctx4 rfl).2
  rw [h]
  rfl

theorem ancLoop_spec (pm : List (Nat × Elem)) (startId : Nat) :
    ∀ (fuel : Nat) (c : XPathContext) (e : Elem), c.item = PyVal.elem e →
      (ancOutEvs (ancLoop pm startId fuel c)).map (fun ev => ev.value) =
        ((ancChainSpec pm startId fuel e.eid).1).map PyVal.elem
      ∧ ancKind (ancLoop pm startId fuel c) =
          (ancChainSpec pm startId fuel e.eid).2 := by
  intro fuel
  induction fuel with
  | zero => intro c e h; exact ⟨rfl, rfl⟩
  | succ n ih =>
    intro c e h
    cases hl : pmLookup pm e.eid with
    | none =>
      simp only [ancLoop, ancChainSpec, h, hl]
      exact ⟨rfl, rfl⟩
    | some p =>
      by_cases hp : p.eid = startId
      · simp only [ancLoop, ancChainSpec, h, hl, if_pos hp]
        exact ⟨rfl, rfl⟩
      · have hi := ih { c with item := PyVal.elem p } p rfl
        simp only [ancLoop, ancChainSpec, h, hl, if_neg hp]
        cases hr : ancLoop pm startId n { c with item := PyVal.elem p } with
        | done evs cf =>
          rw [hr] at hi
          simp only [ancOutEvs, ancKind, List.map_cons, mkYield, List.cons.injEq,
            true_and] at hi ⊢
          exact hi
        | raised evs er =>
          rw [hr] at hi
          simp only [ancOutEvs, ancKind, List.map_cons, mkYield, List.cons.injEq,
            true_and] at hi ⊢
          exact hi
        | fuelOut evs cf =>
          rw [hr] at hi
          simp only [ancOutEvs, ancKind, List.map_cons, mkYield, List.cons.injEq,
            true_and] at hi ⊢
          exact hi

theorem ancLoop_iter (pm : List (Nat × Elem)) (startId : Nat) :
    ∀ (fuel : Nat) (c : XPathContext),
      ∀ ev ∈ ancOutEvs (ancLoop pm startId fuel c),
        ev.iterator = c.iterator ∧ ev.kindTest = c.kindTest := by
  intro fuel
  induction fuel with
  | zero => intro c ev hm; cases hm
  | succ n ih =>
    intro c ev hm
    revert hm
    cases hl : (match c.item with | PyVal.elem e => pmLookup pm e.eid | _ => none) with
    | none =>
      simp only [ancLoop, hl]
      intro hm
      cases hm
    | some p =>
      by_cases hp : p.eid = startId
      · simp only [ancLoop, hl, if_pos hp]
        intro hm
        cases hm
      · simp only [ancLoop, hl, if_neg hp]
        cases hr : ancLoop pm startId n { c with item := PyVal.elem p } with
        | done evs cf =>
          simp only [hr, ancOutEvs, List.mem_cons, mkYield]
          intro hm
          rcases hm with hm | hm
          · subst hm; exact ⟨rfl, rfl⟩
          · have := ih { c with item := PyVal.elem p } ev (by rw [hr]; exact hm)
            exact this
        | raised evs er =>
          simp only [hr, ancOutEvs, List.mem_cons, mkYield]
          intro hm
          rcases hm with hm | hm
          · subst hm; exact ⟨rfl, rfl⟩
          · exact ih { c with item := PyVal.elem p } ev (by rw [hr]; exact hm)
        | fuelOut evs cf =>
          simp only [hr, ancOutEvs, List.mem_cons, mkYield]
          intro hm
          rcases hm with hm | hm
          · subst hm; exact ⟨rfl, rfl⟩
          · exact ih { c with item := PyVal.elem p } ev (by rw [hr]; exact hm)

/-- C8: on an element-like cursor the ancestor axis follows the parent map
strictly upward: its yields are exactly the chain of parents nearest-first
described by ancChainSpec over the same map, it terminates normally exactly
when the chain reaches a node with no parent-map entry, and it raises the
circularity value error exactly when the chain meets a parent identical
(same object id) to the original starting node; a non-element-like cursor
yields nothing. -/
theorem C8_ancestors_spec :
    (∀ (c : XPathContext) (fuel : Nat), is_etree_element c.item = false →
        iter_ancestors c none fuel =
          AncOut.done [] { c with iterator := IterId.iterAncestors })
    ∧ (∀ (e : Elem) (c : XPathContext) (fuel : Nat), c.item = PyVal.elem e →
        (ancOutEvs (iter_ancestors c none fuel)).map (fun ev => ev.value) =
          ((ancChainSpec (pmEntries c.root) e.eid fuel e.eid).1).map PyVal.elem
        ∧ ancKind (iter_ancestors c none fuel) =
            (ancChainSpec (pmEntries c.root) e.eid fuel e.eid).2) := by
  constructor
  · intro c fuel h
    obtain ⟨cr, ci, cp, cs, cv, cm, cit, ck⟩ := c
    simp only at h
    cases ci <;> simp_all [iter_ancestors, is_etree_element]
  · intro e c fuel h
    obtain ⟨cr, ci, cp, cs, cv, cm, cit, ck⟩ := c
    simp only at h
    subst h
    have hL := ancLoop_spec (pmEntries cr) e.eid fuel
      { root := cr, item := PyVal.elem e, position := cp, size := cs,
        varsRef := cv, pmapRef := cm, iterator := IterId.iterAncestors,
        kindTest := ck } e rfl
    simp only [iter_ancestors]
    cases hr : ancLoop (pmEntries cr) e.eid fuel
        { root := cr, item := PyVal.elem e, position := cp, size := cs,
          varsRef := cv, pmapRef := cm, iterator := IterId.iterAncestors,
          kindTest := ck } with
    | done evs cf =>
      rw [hr] at hL
      simpa only [ancOutEvs, ancKind] using hL
    | raised evs er =>
      rw [hr] at hL
      simpa only [ancOutEvs, ancKind] using hL
    | fuelOut evs cf =>
      rw [hr] at hL
      simpa only [ancOutEvs, ancKind] using hL

/-- Witness for C8: starting at a leaf three levels deep the ancestor axis
yields its parent then the root and terminates normally; both facts are
read off the chain specification at the same input. -/
theorem C8_ancestors_spec_witness :
    (ancOutEvs (iter_ancestors ctx8 none 9)).map (fun ev => ev.value) =
      [PyVal.elem exMid, PyVal.elem exTop]
    ∧ ancKind (iter_ancestors ctx8 none 9) = some false := by
  have h := C8_ancestors_spec.2 exLeaf ctx8 9 rfl
  constructor
  · rw [h.1]; rfl
  · rw [h.2]; rfl

theorem iterChildrenBody_iter (c : XPathContext) :
    ∀ ev ∈ (iterChildrenBody c).1, ev.iterator = c.iterator := by
  intro ev hm
  obtain ⟨cr, ci, cp2, cs, cv, cm, cit, ck⟩ := c
  cases ci with
  | pyNone =>
    simp only [iterChildrenBody, isNone, ite_true, List.mem_singleton, mkYield] at hm
    subst hm; rfl
  | elem e =>
    cases e with
    | mk i tg a t ch =>
      cases tg with
      | tagName s =>
        cases t with
        | some sx =>
          simp only [iterChildrenBody, isNone, Bool.false_eq_true, ite_false,
            Elem.tag, Elem.text, Elem.children, mkYield, List.mem_cons,
            List.mem_append, List.not_mem_nil, or_false] at hm
          rcases hm with hm | hm
          · subst hm; rfl
          · exact ((childLoop_spec ch 0 _).2 ev hm).1
        | none =>
          simp only [iterChildrenBody, isNone, Bool.false_eq_true, ite_false,
            Elem.tag, Elem.text, Elem.children, List.nil_append] at hm
          exact ((childLoop_spec ch 0 _).2 ev hm).1
      | comment =>
        simp only [iterChildrenBody, isNone, Bool.false_eq_true, ite_false,
          Elem.tag] at hm
        cases hm
      | procInst =>
        simp only [iterChildrenBody, isNone, Bool.false_eq_true, ite_false,
          Elem.tag] at hm
        cases hm
  | bool b =>
    simp only [iterChildrenBody, isNone, Bool.false_eq_true, ite_false] at hm
    cases hm
  | int n =>
    simp only [iterChildrenBody, isNone, Bool.false_eq_true, ite_false] at hm
    cases hm
  | str sx =>
    simp only [iterChildrenBody, isNone, Bool.false_eq_true, ite_false] at hm
    cases hm
  | list xs =>
    simp only [iterChildrenBody, isNone, Bool.false_eq_true, ite_false] at hm
    cases hm
  | tuple xs b =>
    simp only [iterChildrenBody, isNone, Bool.false_eq_true, ite_false] at hm
    cases hm
  | doc d =>
    simp only [iterChildrenBody, isNone, Bool.false_eq_true, ite_false] at hm
    cases hm

theorem iter_attributes_iter (c0 : XPathContext) :
    ∀ ev ∈ (iter_attributes c0).1, ev.iterator = IterId.iterSelf := by
  intro ev hm
  obtain ⟨cr, ci, cp2, cs, cv, cm, cit, ck⟩ := c0
  cases ci with
  | elem e =>
    cases e with
    | mk i tg a t ch =>
      cases tg with
      | tagName s =>
        simp only [iter_attributes, Elem.tag, Elem.attrib] at hm
        exact ((attrLoop_spec (List.insertionSort pairLe a) _).2 ev hm).1
      | comment => simp only [iter_attributes, Elem.tag] at hm; cases hm
      | procInst => simp only [iter_attributes, Elem.tag] at hm; cases hm
  | pyNone => simp only [iter_attributes] at hm; cases hm
  | bool b => simp only [iter_attributes] at hm; cases hm
  | int n => simp only [iter_attributes] at hm; cases hm
  | str sx => simp only [iter_attributes] at hm; cases hm
  | list xs => simp only [iter_attributes] at hm; cases hm
  | tuple xs b => simp only [iter_attributes] at hm; cases hm
  | doc d => simp only [iter_attributes] at hm; cases hm

/-- The yields of iter_descendants do not depend on which way the optional
item argument repositioned the cursor. -/
theorem iter_descendants_param (c0 : XPathContext) (it : PyVal) :
    (iter_descendants c0 (some it)).1 = (iter_descendants { c0 with item := it } none).1 := by
  cases it <;> rfl

theorem iter_descendants_iter (c0 : XPathContext) :
    ∀ ev ∈ (iter_descendants c0 none).1, ev.iterator = IterId.iterDescendants := by
  intro ev hm
  obtain ⟨cr, ci, cp2, cs, cv, cm, cit, ck⟩ := c0
  cases ci with
  | pyNone =>
    cases cr with
    | doc d =>
      obtain ⟨did, dro⟩ := d
      cases dro with
      | some r =>
        simp only [iter_descendants, isNone, ite_true, is_document_node, getrootVal,
          mkYield, List.mem_cons] at hm
        rcases hm with hm | hm
        · subst hm; rfl
        · exact ((descAux_spec r _ rfl).2.2.1 ev hm).1
      | none =>
        simp only [iter_descendants, isNone, ite_true, is_document_node, getrootVal,
          mkYield, List.mem_cons, List.not_mem_nil, or_false] at hm
        subst hm; rfl
    | elem e =>
      simp only [iter_descendants, isNone, ite_true, is_document_node,
        Bool.false_eq_true, ite_false, mkYield, List.mem_cons] at hm
      rcases hm with hm | hm
      · subst hm; rfl
      · exact ((descAux_spec e _ rfl).2.2.1 ev hm).1
    | pyNone =>
      simp only [iter_descendants, isNone, ite_true, is_document_node,
        Bool.false_eq_true, ite_false, mkYield, List.mem_cons, List.not_mem_nil,
        or_false] at hm
      subst hm; rfl
    | bool b =>
      simp only [iter_descendants, isNone, ite_true, is_document_node,
        Bool.false_eq_true, ite_false, mkYield, List.mem_cons, List.not_mem_nil,
        or_false] at hm
      subst hm; rfl
    | int n =>
      simp only [iter_descendants, isNone, ite_true, is_document_node,
        Bool.false_eq_true, ite_false, mkYield, List.mem_cons, List.not_mem_nil,
        or_false] at hm
      subst hm; rfl
    | str sx =>
      simp only [iter_descendants, isNone, ite_true, is_document_node,
        Bool.false_eq_true, ite_false, mkYield, List.mem_cons, List.not_mem_nil,
        or_false] at hm
      subst hm; rfl
    | list xs =>
      simp only [iter_descendants, isNone, ite_true, is_document_node,
        Bool.false_eq_true, ite_false, mkYield, List.mem_cons, List.not_mem_nil,
        or_false] at hm
      subst hm; rfl
    | tuple xs b =>
      simp only [iter_descendants, isNone, ite_true, is_document_node,
        Bool.false_eq_true, ite_false, mkYield, List.mem_cons, List.not_mem_nil,
        or_false] at hm
      subst hm; rfl
  | elem e =>
    simp only [iter_descendants, isNone, Bool.false_eq_true, ite_false] at hm
    exact ((descAux_spec e _ rfl).2.2.1 ev hm).1
  | bool b =>
    simp only [iter_descendants, isNone, Bool.false_eq_true, ite_false] at hm
    cases hm
  | int n =>
    simp only [iter_descendants, isNone, Bool.false_eq_true, ite_false] at hm
    cases hm
  | str sx =>
    simp only [iter_descendants, isNone, Bool.false_eq_true, ite_false] at hm
    cases hm
  | list xs =>
    simp only [iter_descendants, isNone, Bool.false_eq_true, ite_false] at hm
    cases hm
  | tuple xs b =>
    simp only [iter_descendants, isNone, Bool.false_eq_true, ite_false] at hm
    cases hm
  | doc d =>
    simp only [iter_descendants, isNone, Bool.false_eq_true, ite_false] at hm
    cases hm

theorem iter_ancestors_iter (c0 : XPathContext) (fuel : Nat) :
    ∀ ev ∈ ancOutEvs (iter_ancestors c0 none fuel),
      ev.iterator = IterId.iterAncestors := by
  intro ev hm
  obtain ⟨cr, ci, cp2, cs, cv, cm, cit, ck⟩ := c0
  cases ci with
  | elem e =>
    simp only [iter_ancestors] at hm
    cases hr : ancLoop (pmEntries cr) e.eid fuel
        { root := cr, item := PyVal.elem e, position := cp2, size := cs,
          varsRef := cv, pmapRef := cm, iterator := IterId.iterAncestors,
          kindTest := ck } with
    | done evs cf =>
      rw [hr] at hm
      simp only [ancOutEvs] at hm
      exact (ancLoop_iter (pmEntries cr) e.eid fuel _ ev (by rw [hr]; exact hm)).1
    | raised evs er =>
      rw [hr] at hm
      simp only [ancOutEvs] at hm
      exact (ancLoop_iter (pmEntries cr) e.eid fuel _ ev (by rw [hr]; exact hm)).1
    | fuelOut evs cf =>
      rw [hr] at hm
      simp only [ancOutEvs] at hm
      exact (ancLoop_iter (pmEntries cr) e.eid fuel _ ev (by rw [hr]; exact hm)).1
  | pyNone => simp only [iter_ancestors, ancOutEvs] at hm; cases hm
  | bool b => simp only [iter_ancestors, ancOutEvs] at hm; cases hm
  | int n => simp only [iter_ancestors, ancOutEvs] at hm; cases hm
  | str sx => simp only [iter_ancestors, ancOutEvs] at hm; cases hm
  | list xs => simp only [iter_ancestors, ancOutEvs] at hm; cases hm
  | tuple xs b => simp only [iter_ancestors, ancOutEvs] at hm; cases hm
  | doc d => simp only [iter_ancestors, ancOutEvs] at hm; cases hm

/-- The yields of iter_ancestors do not depend on which way the optional
item argument repositioned the cursor. -/
theorem iter_ancestors_param (c0 : XPathContext) (it : PyVal) (fuel : Nat) :
    ancOutEvs (iter_ancestors c0 (some it) fuel) =
      ancOutEvs (iter_ancestors { c0 with item := it } none fuel) := by
  cases it with
  | elem e =>
    cases hr : ancLoop (pmEntries c0.root) e.eid fuel
        { c0 with iterator := IterId.iterAncestors, item := PyVal.elem e } with
    | done evs cf =>
      have h1 : iter_ancestors c0 (some (PyVal.elem e)) fuel =
          AncOut.done evs (restoreFour cf c0) := by
        simp only [iter_ancestors]
        rw [hr]
      have h2 : iter_ancestors { c0 with item := PyVal.elem e } none fuel =
          AncOut.done evs (restoreFour cf { c0 with item := PyVal.elem e }) := by
        simp only [iter_ancestors]
        rw [show ancLoop (pmEntries c0.root) e.eid fuel
            { c0 with item := PyVal.elem e, iterator := IterId.iterAncestors } =
            AncOut.done evs cf from hr]
      rw [h1, h2]
      rfl
    | raised evs er =>
      have h1 : iter_ancestors c0 (some (PyVal.elem e)) fuel = AncOut.raised evs er := by
        simp only [iter_ancestors]
        rw [hr]
      have h2 : iter_ancestors { c0 with item := PyVal.elem e } none fuel =
          AncOut.raised evs er := by
        simp only [iter_ancestors]
        rw [show ancLoop (pmEntries c0.root) e.eid fuel
            { c0 with item := PyVal.elem e, iterator := IterId.iterAncestors } =
            AncOut.raised evs er from hr]
      rw [h1, h2]
    | fuelOut evs cf =>
      have h1 : iter_ancestors c0 (some (PyVal.elem e)) fuel = AncOut.fuelOut evs cf := by
        simp only [iter_ancestors]
        rw [hr]
      have h2 : iter_ancestors { c0 with item := PyVal.elem e } none fuel =
          AncOut.fuelOut evs cf := by
        simp only [iter_ancestors]
        rw [show ancLoop (pmEntries c0.root) e.eid fuel
            { c0 with item := PyVal.elem e, iterator := IterId.iterAncestors } =
            AncOut.fuelOut evs cf from hr]
      rw [h1, h2]
  | pyNone => rfl
  | bool b => rfl
  | int n => rfl
  | str sx => rfl
  | list xs => rfl
  | tuple xs b => rfl
  | doc d => rfl

/-- C5 as stated is false on the code: while the attribute axis is running,
the installed active iterator is the self-axis traversal (the source line
self._iterator, self._node_kind_test = self.iter_self, is_attribute_node
stores iter_self), not the attribute traversal. -/
theorem C5_counterexample :
    (iter_attributes ctx5).1.map (fun ev => ev.iterator) = [IterId.iterSelf]
    ∧ IterId.iterSelf ≠ IterId.iterAttributes :=
  ⟨rfl, by decide⟩

/-- C5 amended: every axis traversal snapshots the cursor's four fields
(item, size, position, active_iterator) on entry, observable in that the
self, attribute and children traversals restore exactly those four fields
on exhaustion of their bodies; the self, descendant, children and ancestor
traversals install themselves as active_iterator for the duration (every
yield carries that iterator), while the attribute traversal instead
installs the self-axis traversal as active_iterator. -/
theorem C5_iterator_install :
    (∀ c : XPathContext, ∀ ev ∈ (iter_self c).1, ev.iterator = IterId.iterSelf)
    ∧ (∀ c : XPathContext, ∀ ev ∈ (iter_attributes c).1, ev.iterator = IterId.iterSelf)
    ∧ (∀ (c : XPathContext) (p : Option PyVal), ∀ ev ∈ (iter_children c p).1,
        ev.iterator = IterId.iterChildren)
    ∧ (∀ (c : XPathContext) (p : Option PyVal), ∀ ev ∈ (iter_descendants c p).1,
        ev.iterator = IterId.iterDescendants)
    ∧ (∀ (c : XPathContext) (p : Option PyVal) (fuel : Nat),
        ∀ ev ∈ ancOutEvs (iter_ancestors c p fuel), ev.iterator = IterId.iterAncestors)
    ∧ (∀ c : XPathContext, (iter_self c).2.item = c.item
        ∧ (iter_self c).2.size = c.size
        ∧ (iter_self c).2.position = c.position
        ∧ (iter_self c).2.iterator = c.iterator)
    ∧ (∀ c : XPathContext, (iter_attributes c).2.item = c.item
        ∧ (iter_attributes c).2.size = c.size
        ∧ (iter_attributes c).2.position = c.position
        ∧ (iter_attributes c).2.iterator = c.iterator)
    ∧ (∀ (c : XPathContext) (p : Option PyVal), (iter_children c p).2.item = c.item
        ∧ (iter_children c p).2.size = c.size
        ∧ (iter_children c p).2.position = c.position
        ∧ (iter_children c p).2.iterator = c.iterator) := by
  refine ⟨?_, ?_, ?_, ?_, ?_, ?_, ?_, ?_⟩
  · intro c ev hm
    simp only [iter_self, mkYield, List.mem_singleton] at hm
    subst hm; rfl
  · exact iter_attributes_iter
  · intro c p ev hm
    cases p with
    | none =>
      simp only [iter_children] at hm
      exact iterChildrenBody_iter _ ev hm
    | some it =>
      simp only [iter_children] at hm
      exact iterChildrenBody_iter _ ev hm
  · intro c p ev hm
    cases p with
    | none => exact iter_descendants_iter c ev hm
    | some it =>
      rw [iter_descendants_param c it] at hm
      exact iter_descendants_iter _ ev hm
  · intro c p fuel ev hm
    cases p with
    | none => exact iter_ancestors_iter c fuel ev hm
    | some it =>
      rw [iter_ancestors_param c it fuel] at hm
      exact iter_ancestors_iter _ fuel ev hm
  · intro c
    exact ⟨rfl, rfl, rfl, rfl⟩
  · intro c
    obtain ⟨cr, ci, cp2, cs, cv, cm, cit, ck⟩ := c
    cases ci with
    | elem e =>
      cases e with
      | mk i tg a t ch =>
        cases tg with
        | tagName s => exact ⟨rfl, rfl, rfl, rfl⟩
        | comment => exact ⟨rfl, rfl, rfl, rfl⟩
        | procInst => exact ⟨rfl, rfl, rfl, rfl⟩
    | pyNone => exact ⟨rfl, rfl, rfl, rfl⟩
    | bool b => exact ⟨rfl, rfl, rfl, rfl⟩
    | int n => exact ⟨rfl, rfl, rfl, rfl⟩
    | str sx => exact ⟨rfl, rfl, rfl, rfl⟩
    | list xs => exact ⟨rfl, rfl, rfl, rfl⟩
    | tuple xs b => exact ⟨rfl, rfl, rfl, rfl⟩
    | doc d => exact ⟨rfl, rfl, rfl, rfl⟩
  · intro c p
    exact ⟨rfl, rfl, rfl, rfl⟩

/-- Witness for C5: the single yield of the attribute axis on an element
with one attribute carries iter_self as the active iterator. -/
theorem C5_iterator_install_witness :
    c5ev.iterator = IterId.iterSelf := by
  have hm : c5ev ∈ (iter_attributes ctx5).1 := by
    have he : (iter_attributes ctx5).1 = [c5ev] := rfl
    rw [he]
    exact List.mem_singleton.mpr rfl
  exact C5_iterator_install.2.1 ctx5 c5ev hm

theorem getD_append_len (l : List VarDict) (d : VarDict) :
    (l ++ [d]).getD l.length [] = d := by
  induction l with
  | nil => rfl
  | cons x xs ih => simp only [List.cons_append, List.length_cons]; exact ih

theorem getD_set_ne (l : List VarDict) (i j : Nat) (d : VarDict) (h : i ≠ j) :
    (l.set i d).getD j [] = l.getD j [] := by
  induction l generalizing i j with
  | nil => rfl
  | cons x xs ih =>
    cases i with
    | zero =>
      cases j with
      | zero => exact absurd rfl h
      | succ j2 => rfl
    | succ i2 =>
      cases j with
      | zero => rfl
      | succ j2 => exact ih i2 j2 (fun hh => h (by rw [hh]))

theorem getD_set_self (l : List VarDict) (i : Nat) (d : VarDict) (h : i < l.length) :
    (l.set i d).getD i [] = d := by
  induction l generalizing i with
  | nil => cases h
  | cons x xs ih =>
    cases i with
    | zero => rfl
    | succ i2 => exact ih i2 (Nat.lt_of_succ_lt_succ h)

/-- C9: copy() of a context with a valid root and a valid variables
reference succeeds and returns a context whose variables dict is a fresh
reference with the same entries — updating either dict through the store
leaves the dict seen through the other reference unchanged, while an update
through the copy's reference is visible through it — whose parent-map cache
reference is the very same as the original's (no rebuild), and whose root
is inherited. -/
theorem C9_copy_spec (st : Store) (c : XPathContext)
    (hroot : is_element_node c.root = true ∨ is_document_node c.root = true)
    (hvr : c.varsRef < st.dicts.length) :
    ∃ st2 c2, contextCopy st c PyVal.pyNone = Except.ok (st2, c2)
      ∧ c2.varsRef ≠ c.varsRef
      ∧ lookupDict st2 c2.varsRef = lookupDict st c.varsRef
      ∧ (∀ k v, lookupDict (setVar st2 c2.varsRef k v) c.varsRef =
          lookupDict st2 c.varsRef)
      ∧ (∀ k v, lookupDict (setVar st2 c.varsRef k v) c2.varsRef =
          lookupDict st2 c2.varsRef)
      ∧ (∀ k v, lookupDict (setVar st2 c2.varsRef k v) c2.varsRef =
          dictSet (lookupDict st2 c2.varsRef) k v)
      ∧ c2.pmapRef = c.pmapRef
      ∧ c2.root = c.root := by
  have hg : (!is_element_node c.root && !is_document_node c.root) = false := by
    rcases hroot with h | h <;> simp [h]
  have hstep : contextCopy st c PyVal.pyNone =
      Except.ok ({ dicts := st.dicts ++ [lookupDict st c.varsRef] },
        { root := c.root
          item := if !isNone c.item then c.item
            else if is_element_node c.root then c.root else getrootVal c.root
          position := c.position
          size := c.size
          varsRef := st.dicts.length
          pmapRef := c.pmapRef
          iterator := .noIter
          kindTest := .elementTest }) := by
    simp only [contextCopy, contextInit, allocDict, isNone, ite_true, hg,
      Bool.false_eq_true, ite_false]
  have hne : st.dicts.length ≠ c.varsRef := Ne.symm (ne_of_lt hvr)
  refine ⟨_, _, hstep, hne, ?_, ?_, ?_, ?_, rfl, rfl⟩
  · simp only [lookupDict]
    exact getD_append_len st.dicts _
  · intro k v
    simp only [lookupDict, setVar]
    exact getD_set_ne _ _ _ _ hne
  · intro k v
    simp only [lookupDict, setVar]
    exact getD_set_ne _ _ _ _ (Ne.symm hne)
  · intro k v
    simp only [lookupDict, setVar]
    refine getD_set_self _ _ _ ?_
    simp only [List.length_append, List.length_singleton]
    omega

/-- Witness for C9 at a concrete store and context. -/
theorem C9_copy_spec_witness :
    ∃ st2 c2, contextCopy st9 ctx9 PyVal.pyNone = Except.ok (st2, c2)
      ∧ c2.varsRef ≠ ctx9.varsRef
      ∧ lookupDict st2 c2.varsRef = lookupDict st9 ctx9.varsRef
      ∧ (∀ k v, lookupDict (setVar st2 c2.varsRef k v) ctx9.varsRef =
          lookupDict st2 ctx9.varsRef)
      ∧ (∀ k v, lookupDict (setVar st2 ctx9.varsRef k v) c2.varsRef =
          lookupDict st2 c2.varsRef)
      ∧ (∀ k v, lookupDict (setVar st2 c2.varsRef k v) c2.varsRef =
          dictSet (lookupDict st2 c2.varsRef) k v)
      ∧ c2.pmapRef = ctx9.pmapRef
      ∧ c2.root = ctx9.root :=
  C9_copy_spec st9 ctx9 (Or.inl (by decide)) (by decide)

/-- C10 as stated is false on the code: a rootless document (an empty
ElementTree, which passes the duck-typed is_document_node guard while its
getroot() returns None) is accepted as root, and construction with
item=None then sets item = root.getroot() = None — so the document-sentinel
value None can arise from construction defaults. -/
theorem C10_counterexample :
    contextInit st10 (PyVal.doc exDocEmpty) PyVal.pyNone 0 1 none =
      Except.ok (st10r, ctx10n)
    ∧ isNone ctx10n.item = true :=
  ⟨rfl, rfl⟩

/-- C10 amended: for every successful construction with item=None, the item
is set to root itself when root is an element node (hence never the
sentinel None), and to root.getroot() when root is a document node — the
document root element (not None) exactly when the document has one, and the
sentinel None when the document is rootless. -/
theorem C10_init_item :
    ∀ (st : Store) (root : PyVal) (pos sz : Nat) (varsArg : Option Nat)
      (st2 : Store) (c : XPathContext),
      contextInit st root PyVal.pyNone pos sz varsArg = Except.ok (st2, c) →
        (is_element_node root = true → c.item = root ∧ isNone c.item = false)
        ∧ (∀ d, root = PyVal.doc d →
            c.item = getrootVal (PyVal.doc d)
            ∧ (∀ r, d.root = some r → c.item = PyVal.elem r ∧ isNone c.item = false)
            ∧ (d.root = none → c.item = PyVal.pyNone)) := by
  intro st root pos sz varsArg st2 c h
  by_cases hg : (!is_element_node root && !is_document_node root) = true
  · rw [contextInit.eq_def, if_pos hg] at h
    cases h
  · have hg2 : (!is_element_node root && !is_document_node root) = false := by
      simpa using hg
    rw [contextInit.eq_def, if_neg (by rw [hg2]; exact Bool.false_ne_true)] at h
    simp only [isNone, Bool.not_true, Bool.false_eq_true, ite_false,
      Except.ok.injEq, Prod.mk.injEq] at h
    obtain ⟨hst, hc⟩ := h
    subst hc
    refine ⟨?_, ?_⟩
    · intro he
      rw [if_pos he]
      refine ⟨rfl, ?_⟩
      cases root <;> simp_all [is_element_node, isNone]
    · intro d hd
      subst hd
      obtain ⟨did, dro⟩ := d
      rw [if_neg (by simp [is_element_node])]
      refine ⟨rfl, ?_, ?_⟩
      · intro r hr
        simp only at hr
        subst hr
        exact ⟨rfl, rfl⟩
      · intro hr
        simp only at hr
        subst hr
        rfl

/-- Witness for C10 at a concrete construction: the context built on the
element exA with item=None has its cursor on exA, not on the sentinel. -/
theorem C10_init_item_witness :
    ctx10.item = PyVal.elem exA ∧ isNone ctx10.item = false := by
  have h := C10_init_item st10 (PyVal.elem exA) 0 1 none st10r ctx10 (by rfl)
  exact h.1 (by decide)

end ElementPath
